import Mathlib

/-!
Verification of the iterative optimization driver in
`neural_artistic_style.py` (xrwang/neural_artistic_style).

The source is shallowly embedded: numpy float arrays become functions
on `Fin`-indexed coordinates with rational (or, where a square root is
involved, real) entries, the external feature/loss network and the Adam
optimizer become an abstract state-transformer record, the numpy global
random generator becomes an abstract seeded generator record, and the
filesystem effects of the video path become an explicit state/trace
semantics.
-/

namespace NAS

/-! ### Images

A numpy `H×W×C` array is embedded as a curried function on coordinates.
-/

/-- An `H × W × C` pixel array with entries in `α`. -/
def Image3 (H W C : ℕ) (α : Type) : Type :=
  Fin H → Fin W → Fin C → α

/-! ### weight_array (source lines 31-38)

```python
def weight_array(weights):
    array = np.zeros(19)
    for idx, weight in weights:
        array[idx] = weight
    norm = np.sum(array)
    if norm > 0:
        array /= norm
    return array
```

Indices are typed `Fin 19`, matching the valid-index domain of the numpy
array (an out-of-range index raises `IndexError` in the source and is
outside every claim's hypothesis).
-/

/-- The accumulation loop `for idx, weight in weights: array[idx] = weight`:
later entries for the same index overwrite earlier ones. -/
def accum_weights : List (Fin 19 × ℚ) → (Fin 19 → ℚ) → (Fin 19 → ℚ)
  | [], a => a
  | (idx, w) :: rest, a => accum_weights rest (Function.update a idx w)

/-- Embedding of `weight_array`: accumulate into `np.zeros(19)`, then divide
by the total iff it is strictly positive. -/
def weight_array (ws : List (Fin 19 × ℚ)) : Fin 19 → ℚ :=
  let array := accum_weights ws (fun _ => 0)
  let norm := ∑ j, array j
  if 0 < norm then fun j => array j / norm else array

/-! ### Tensor layout adapters (source lines 50-55)

```python
def to_bc01(img):
    return np.transpose(img, (2, 0, 1))[np.newaxis, ...]

def to_rgb(img):
    return np.transpose(img[0], (1, 2, 0))
```
-/

/-- Embedding of `to_bc01`: `transpose(img, (2,0,1))` places axis 2 first,
so entry `(0, c, h, w)` of the result is entry `(h, w, c)` of the input;
`[np.newaxis, ...]` adds the batch axis. -/
def to_bc01 {H W C : ℕ} {α : Type} (img : Image3 H W C α) :
    Fin 1 → Fin C → Fin H → Fin W → α :=
  fun _ c h w => img h w c

/-- Embedding of `to_rgb`: drop the batch axis (`img[0]`), then
`transpose(·, (1,2,0))`, so entry `(h, w, c)` of the result is entry
`(0, c, h, w)` of the input. -/
def to_rgb {H W C : ℕ} {α : Type} (img : Fin 1 → Fin C → Fin H → Fin W → α) :
    Image3 H W C α :=
  fun h w c => img 0 c h w

/-! ### imsave (source lines 45-47)

```python
def imsave(path, img):
    img = np.clip(img, 0, 255).astype(np.uint8)
    scipy.misc.imsave(path, img)
```
-/

/-- One pixel of `np.clip(img, 0, 255).astype(np.uint8)`: clip into
`[0, 255]`, then truncate to an integer (for values already in `[0, 255]`
the uint8 cast truncates toward zero, i.e. floors). -/
def clipU8 (q : ℚ) : ℤ :=
  Int.floor (max 0 (min 255 q))

/-- The pixel data `imsave` persists for an image: elementwise
clip-and-cast. -/
def imsaveArr {H W C : ℕ} (img : Image3 H W C ℚ) : Image3 H W C ℤ :=
  fun h w c => clipU8 (img h w c)

/-! ### The optimization loop of style_image (source lines 186-196)

```python
params = net.params
learn_rule = dp.Adam(learn_rate=args.learn_rate)
learn_rule_states = [learn_rule.init_state(p) for p in params]
for i in range(args.iterations):
    if args.animation_enabled and i % args.animation_rate == 0:
        imsave(os.path.join(args.animation_directory, '%.4d.png' % i), net_img())
    cost = np.mean(net.update())
    for param, state in zip(params, learn_rule_states):
        learn_rule.step(param, state)
    print('Iteration: %i, cost: %.4f' % (i, cost))
imsave(args.output, net_img())
```

The external `StyleNetwork` plus the Adam optimizer and its per-parameter
moment states are embedded as one abstract state `S` with an `update`
operation (returns the mean cost; stores gradients in the state without
changing parameter values) and an `adamStep` operation (the combined
effect of one `learn_rule.step` pass over `net.params`).  `nparams` is
the length of `net.params`; per the network's contract the image tensor
is the sole parameter, so `nparams = 1` in every actual run.  `net_img`
embeds `to_rgb(net.image) + pixel_mean`.

A zero `animation_rate` makes the Python loop raise `ZeroDivisionError`
at `i % args.animation_rate`; the theorems therefore assume a positive
rate (`ℕ` mod-by-zero would silently disagree with the source there).
-/

/-- Abstract interface of the external loss network plus optimizer, as the
driver uses it. -/
structure StyleNet (S : Type) (H W C : ℕ) where
  /-- Mean cost of `net.update()` together with the post-update state. -/
  update : S → ℚ × S
  /-- Combined effect of `learn_rule.step(param, state)` over all params. -/
  adamStep : S → S
  /-- Length of `net.params` (exactly 1: the pixel tensor). -/
  nparams : ℕ
  /-- The viewable image `to_rgb(net.image) + pixel_mean`. -/
  net_img : S → Image3 H W C ℚ

/-- One full iteration of the loop body after the animation save:
`net.update()` followed by the optimizer pass. -/
def stepOnce {S : Type} {H W C : ℕ} (M : StyleNet S H W C) (s : S) : S :=
  M.adamStep (M.update s).2

/-- Observable outcome of running the loop: animation files written
(iteration index with the persisted pixel data), how many times
`net.update()` and `learn_rule.step` ran, and the final network state. -/
structure LoopOut (S : Type) (H W C : ℕ) where
  frames : List (ℕ × Image3 H W C ℤ)
  updateCalls : ℕ
  stepCalls : ℕ
  state : S

/-- The `for i in range(args.iterations)` loop, with `n` iterations left
and `i` the current index: optional animation save first, then
`net.update()`, then one `learn_rule.step` per parameter. -/
def styleLoop {S : Type} {H W C : ℕ} (M : StyleNet S H W C)
    (animEnabled : Bool) (animRate : ℕ) :
    ℕ → ℕ → S → LoopOut S H W C
  | 0, _, s => ⟨[], 0, 0, s⟩
  | n + 1, i, s =>
    let saves := if animEnabled = true ∧ i % animRate = 0
      then [(i, imsaveArr (M.net_img s))] else []
    let s1 := (M.update s).2
    let s2 := M.adamStep s1
    let rest := styleLoop M animEnabled animRate n (i + 1) s2
    ⟨saves ++ rest.frames, rest.updateCalls + 1,
      rest.stepCalls + M.nparams, rest.state⟩

/-- The repaint phase of `style_image`: run the loop from index 0, then
persist the final image at `args.output`. -/
def style_image_run {S : Type} {H W C : ℕ} (M : StyleNet S H W C)
    (animEnabled : Bool) (animRate iterations : ℕ) (s0 : S) :
    LoopOut S H W C × Image3 H W C ℤ :=
  let r := styleLoop M animEnabled animRate iterations 0 s0
  (r, imsaveArr (M.net_img r.state))

/-- Every image `style_image` persists: the animation checkpoints and the
final output. -/
def savedImages {S : Type} {H W C : ℕ}
    (r : LoopOut S H W C × Image3 H W C ℤ) : List (Image3 H W C ℤ) :=
  r.1.frames.map Prod.snd ++ [r.2]

/-- Number of loop indices `i`, among `j, j+1, ..., j+n-1`, with
`i % rate = 0` — the animation saves the loop performs. -/
def countHits (rate : ℕ) : ℕ → ℕ → ℕ
  | _, 0 => 0
  | j, n + 1 => (if j % rate = 0 then 1 else 0) + countHits rate (j + 1) n

/-- Concrete instantiation used by witnesses: state is a counter, one
parameter, pixel value is 100 times the counter. -/
def netW : StyleNet ℕ 1 1 1 where
  update := fun s => (0, s + 1)
  adamStep := fun s => s * 2
  nparams := 1
  net_img := fun s _ _ _ => (s : ℚ) * 100

/-! ### Image preparation in style_image (source lines 156-170)

```python
if args.random_seed is not None:
    np.random.seed(args.random_seed)
...
style_img = imread(args.style) - pixel_mean
subject_img = imread(args.subject) - pixel_mean
if args.init is None:
    init_img = subject_img
else:
    init_img = imread(args.init) - pixel_mean
noise = np.random.normal(size=init_img.shape, scale=np.std(init_img)*1e-1)
init_img = init_img * (1 - args.init_noise) + noise * args.init_noise
```

Pixels are rationals.  `np.std` is the square root of the mean squared
deviation; the square root itself (an external numeric primitive whose
value is irrational in general) is abstracted as a function parameter
`sqrtFn`, so `np.std(a)` is embedded as `sqrtFn (npVariance a)` — no claim
in this development depends on any property of the square root.  The numpy
global random generator is abstracted as a state type with a deterministic
`np.random.seed` map and a standard-normal draw per state;
`np.random.normal(size=shape, scale=s)` is `s` times the standard draw.
-/

/-- Per-channel mean subtraction `imread(path) - pixel_mean` (numpy
broadcasts the length-`C` mean vector over height and width). -/
def meanSub {H W C : ℕ} (img : Image3 H W C ℚ) (mean : Fin C → ℚ) :
    Image3 H W C ℚ :=
  fun x y c => img x y c - mean c

/-- Mean of all entries (`np.mean` over the flattened array). -/
def npMean {H W C : ℕ} (img : Image3 H W C ℚ) : ℚ :=
  (∑ x, ∑ y, ∑ c, img x y c) / (H * W * C)

/-- Mean squared deviation of the entries: the square of `np.std`. -/
def npVariance {H W C : ℕ} (img : Image3 H W C ℚ) : ℚ :=
  (∑ x, ∑ y, ∑ c, (img x y c - npMean img) ^ 2) / (H * W * C)

/-- Abstract model of numpy's global random generator: a state type `R`,
the deterministic `np.random.seed`, and the standard-normal image-shaped
draw the current state yields. -/
structure NpRandom (R : Type) (H W C : ℕ) where
  seed : ℤ → R
  stdNormal : R → Image3 H W C ℚ

/-- The generator state at sampling time: freshly seeded when
`args.random_seed is not None`, otherwise whatever ambient state `r0` the
process happens to have. -/
def seededState {R : Type} {H W C : ℕ} (rng : NpRandom R H W C) (r0 : R)
    (seed? : Option ℤ) : R :=
  match seed? with
  | some sd => rng.seed sd
  | none => r0

/-- The three prepared tensors of `style_image`. -/
structure PreparedImages (H W C : ℕ) where
  style_img : Image3 H W C ℚ
  subject_img : Image3 H W C ℚ
  init_img : Image3 H W C ℚ

/-- Embedding of the input-preparation phase: mean-subtract the loaded
images, default the initial image to the subject, then blend it with
Gaussian noise whose scale is `np.std(init_img) * 1e-1`. -/
def prepare_images {R : Type} {H W C : ℕ} (sqrtFn : ℚ → ℚ)
    (rng : NpRandom R H W C) (r0 : R) (seed? : Option ℤ)
    (subject style : Image3 H W C ℚ) (init? : Option (Image3 H W C ℚ))
    (mean : Fin C → ℚ) (init_noise : ℚ) : PreparedImages H W C :=
  let r := seededState rng r0 seed?
  let style_img := meanSub style mean
  let subject_img := meanSub subject mean
  let init0 := match init? with
    | none => subject_img
    | some ii => meanSub ii mean
  let noise := fun x y c =>
    (sqrtFn (npVariance init0) * (1 / 10)) * rng.stdNormal r x y c
  { style_img := style_img
    subject_img := subject_img
    init_img := fun x y c =>
      init0 x y c * (1 - init_noise) + noise x y c * init_noise }

/-- The initial image before the noise blend: mean-subtracted subject, or
the mean-subtracted explicit init image when one is given. -/
def initImage {H W C : ℕ} (subject : Image3 H W C ℚ)
    (init? : Option (Image3 H W C ℚ)) (mean : Fin C → ℚ) : Image3 H W C ℚ :=
  match init? with
  | none => meanSub subject mean
  | some ii => meanSub ii mean

/-- Witness fixtures for the preparation claims: trivial generator state,
constant draws and images. -/
def rngW : NpRandom Unit 1 1 1 where
  seed := fun _ => ()
  stdNormal := fun _ _ _ _ => 2

/-- Constant subject image used by witnesses. -/
def subjW : Image3 1 1 1 ℚ := fun _ _ _ => 9

/-- Constant style image used by witnesses. -/
def styW : Image3 1 1 1 ℚ := fun _ _ _ => 4

/-- Constant channel mean used by witnesses. -/
def meanW : Fin 1 → ℚ := fun _ => 1

/-- A square-root stand-in for witnesses (the variance of a constant image
is 0, so its value never matters there). -/
def sqrtW : ℚ → ℚ := fun _ => 0

/-! ### style_video (source lines 109-153)

```python
def style_video(args):
    input_frames_dir = 'input_frames'
    output_frames_dir = 'output_frames'
    ...
    shutil.rmtree(input_frames_dir)
    os.mkdir(input_frames_dir)
    shutil.rmtree(output_frames_dir)
    os.mkdir(output_frames_dir)

    split_frames_cmd = ['ffmpeg', '-i', subject, ...]
    ...
```

The relevant filesystem state is the two frame directories, each either
absent (`none`) or present with a list of files.  `shutil.rmtree` raises
`FileNotFoundError` on an absent directory.  After the two resets the
function builds `split_frames_cmd`, whose element `subject` is an unbound
name (the parameter is `args`; no global `subject` exists), so a
`NameError` is raised there — before either `ffmpeg` invocation, before
the per-frame loop, and before the re-mux.  The function therefore never
reaches lines 120-153 at runtime; the per-frame loop of lines 133-139 is
additionally embedded on its own below to record what it would pass to
`style_image`.
-/

/-- Python exceptions style_video can raise before its first external
call. -/
inductive PyErr
  | fileNotFound
  | nameError

/-- The two frame directories: absent, or present with their files. -/
structure VFS (F : Type) where
  input_frames : Option (List F)
  output_frames : Option (List F)

/-- Observable steps of a video job, in program order. -/
inductive VidEv (F : Type)
  | resetInput
  | resetOutput
  | extractFrames
  | extractAudio
  | processFrame (f : F)
  | remux

/-- Embedding of `style_video`: the emitted event trace together with the
outcome (every control path raises, carrying the filesystem state at the
raise). -/
def style_video {F : Type} (fs : VFS F) :
    List (VidEv F) × Except (PyErr × VFS F) (VFS F) :=
  match fs.input_frames with
  | none => ([], Except.error (PyErr.fileNotFound, fs))
  | some _ =>
    let fs1 : VFS F := { fs with input_frames := some [] }
    match fs1.output_frames with
    | none => ([VidEv.resetInput], Except.error (PyErr.fileNotFound, fs1))
    | some _ =>
      let fs2 : VFS F := { fs1 with output_frames := some [] }
      ([VidEv.resetInput, VidEv.resetOutput],
        Except.error (PyErr.nameError, fs2))

/-- The argument object fields the per-frame loop touches.
`animation` is a fresh attribute created by `frame_args.animation = False`
on the copy; `style_image` reads `animation_enabled`, never `animation`. -/
structure FrameArgs (P : Type) where
  subject : P
  output : P
  animation_enabled : Bool
  animation : Option Bool

/-- The body of `for frame in os.listdir(input_frames_dir)` (lines
136-139), threading the mutated copy `frame_args` and returning the
argument object passed to each `style_image` call — which is `args`, not
`frame_args`. -/
def video_frame_go {P F : Type} (args : FrameArgs P) (inPath outPath : F → P) :
    FrameArgs P → List F → List (FrameArgs P)
  | _, [] => []
  | frame_args, f :: rest =>
    let fa := { frame_args with subject := inPath f, output := outPath f }
    args :: video_frame_go args inPath outPath fa rest

/-- Lines 133-139: copy `args`, set `animation` on the copy, then loop.
`inPath`/`outPath` embed the `os.path.join` of a frame name under the
input/output frame directory. -/
def video_frame_calls {P F : Type} (args : FrameArgs P)
    (inPath outPath : F → P) (frames : List F) : List (FrameArgs P) :=
  video_frame_go args inPath outPath
    { args with animation := some false } frames

/-! ### Argument parsing (source lines 16-28 and 58-101)

```python
def weight_tuple(s):
    try:
        conv_idx, weight = map(float, s.split(','))
        return conv_idx, weight
    except:
        raise argparse.ArgumentTypeError('weights must by "int,float"')

def float_range(x):
    x = float(x)
    if x < 0.0 or x > 1.0:
        raise argparse.ArgumentTypeError("%r not in range [0, 1]" % x)
    return x
```

Strings are lists of characters.  Python's `float()` builtin is modelled
on plain decimal literals (optional sign, digits, optional single decimal
point); exponent/infinity/whitespace forms, which no claim exercises, are
rejected by the model.  `argparse` runs each option's type converter
during `parse_args` and turns any exception from it into a usage error
that exits the process with status 2, before `run` dispatches to
`style_image`/`style_video` — the only places an image is read.
-/

/-- Numeric value of a digit character. -/
def digitVal (c : Char) : ℕ :=
  c.toNat - 48

/-- Value of a digit string, 0 when empty (callers guard emptiness). -/
def digitsVal (s : List Char) : ℕ :=
  s.foldl (fun a c => a * 10 + digitVal c) 0

/-- Python `float()` on an unsigned plain decimal literal: digits with an
optional single decimal point, at least one digit in total
("1", "1.5", "1.", ".5"). -/
def pyFloatUnsigned (s : List Char) : Option ℚ :=
  let intPart := s.takeWhile Char.isDigit
  let rest := s.dropWhile Char.isDigit
  match rest with
  | [] => if intPart = [] then none else some (digitsVal intPart)
  | '.' :: frac =>
    if frac.all Char.isDigit ∧ (intPart ≠ [] ∨ frac ≠ []) then
      some ((digitsVal intPart : ℚ) + (digitsVal frac : ℚ) / (10 : ℚ) ^ frac.length)
    else none
  | _ => none

/-- Python `float()` with an optional sign. -/
def pyFloat (s : List Char) : Option ℚ :=
  match s with
  | '-' :: rest => (pyFloatUnsigned rest).map (fun q => -q)
  | '+' :: rest => pyFloatUnsigned rest
  | _ => pyFloatUnsigned s

/-- Python `s.split(',')`: comma-separated (possibly empty) parts. -/
def splitComma : List Char → List (List Char)
  | [] => [[]]
  | ',' :: rest => [] :: splitComma rest
  | c :: rest =>
    match splitComma rest with
    | [] => [[c]]
    | p :: ps => (c :: p) :: ps

/-- Embedding of `weight_tuple`: the unpacking succeeds iff the split has
exactly two parts and both parse as floats; any failure (a non-float part
or a part count other than two) is caught by the bare `except` and
re-raised as `ArgumentTypeError`. -/
def weight_tuple (s : List Char) : Except Unit (ℚ × ℚ) :=
  match (splitComma s).map pyFloat with
  | [some a, some b] => Except.ok (a, b)
  | _ => Except.error ()

/-- Embedding of `float_range`: convert (a `float()` failure propagates to
argparse exactly like the explicit raise), then reject values outside
`[0, 1]`. -/
def float_range (s : List Char) : Except Unit ℚ :=
  match pyFloat s with
  | none => Except.error ()
  | some x => if x < 0 ∨ 1 < x then Except.error () else Except.ok x

/-- Convert every element, failing if any conversion fails — argparse's
treatment of a repeated (`nargs='*'`) typed option. -/
def mapConv {α β : Type} (f : α → Option β) : List α → Option (List β)
  | [] => some []
  | a :: l =>
    match f a, mapConv f l with
    | some b, some bs => some (b :: bs)
    | _, _ => none

/-- The command-line strings whose parsing can raise, plus the subject
(the remaining options' converters cannot fail). -/
structure RawArgs where
  subject : List Char
  style : List Char
  init_noise : List Char
  subject_weights : List (List Char)
  style_weights : List (List Char)

/-- The corresponding parsed configuration. -/
structure ParsedArgs where
  subject : List Char
  style : List Char
  init_noise : ℚ
  subject_weights : List (ℚ × ℚ)
  style_weights : List (ℚ × ℚ)

/-- `parser.parse_args()`: run every type converter; any failure exits the
process with status 2. -/
def parse_args (raw : RawArgs) : Except ℕ ParsedArgs :=
  match float_range raw.init_noise,
      mapConv (fun s => (weight_tuple s).toOption) raw.subject_weights,
      mapConv (fun s => (weight_tuple s).toOption) raw.style_weights with
  | Except.ok nz, some sw, some tw =>
    Except.ok ⟨raw.subject, raw.style, nz, sw, tw⟩
  | _, _, _ => Except.error 2

/-- Result of `run()` up to the dispatch on the subject's file extension:
either the argparse usage exit (no image was loaded, no computation ran)
or the parsed configuration handed to `style_image`/`style_video`. -/
inductive RunOutcome
  | exitUsage (code : ℕ)
  | dispatched (args : ParsedArgs)

/-- Embedding of `run()`: `parse_args` runs first; images are only ever
read inside the dispatched `style_image`/`style_video`. -/
def run (raw : RawArgs) : RunOutcome :=
  match parse_args raw with
  | Except.error c => RunOutcome.exitUsage c
  | Except.ok a => RunOutcome.dispatched a

/-- Raw arguments for the C8 witness: out-of-range noise and a malformed
weight pair. -/
def rawW : RawArgs :=
  ⟨['v'], ['s'], ['2'], [['a']], []⟩

/-! ## Loop lemmas -/

theorem styleLoop_updateCalls {S : Type} {H W C : ℕ} (M : StyleNet S H W C)
    (e : Bool) (rate : ℕ) :
    ∀ (n i : ℕ) (s : S), (styleLoop M e rate n i s).updateCalls = n := by
  intro n
  induction n with
  | zero => intro i s; rfl
  | succ n ih =>
    intro i s
    show (styleLoop M e rate n (i + 1) _).updateCalls + 1 = n + 1
    rw [ih]

theorem styleLoop_stepCalls {S : Type} {H W C : ℕ} (M : StyleNet S H W C)
    (e : Bool) (rate : ℕ) :
    ∀ (n i : ℕ) (s : S), (styleLoop M e rate n i s).stepCalls = n * M.nparams := by
  intro n
  induction n with
  | zero => intro i s; simp [styleLoop]
  | succ n ih =>
    intro i s
    show (styleLoop M e rate n (i + 1) _).stepCalls + M.nparams = (n + 1) * M.nparams
    rw [ih, Nat.succ_mul]

theorem styleLoop_state {S : Type} {H W C : ℕ} (M : StyleNet S H W C)
    (e : Bool) (rate : ℕ) :
    ∀ (n i : ℕ) (s : S), (styleLoop M e rate n i s).state = (stepOnce M)^[n] s := by
  intro n
  induction n with
  | zero => intro i s; rfl
  | succ n ih =>
    intro i s
    show (styleLoop M e rate n (i + 1) (stepOnce M s)).state = (stepOnce M)^[n + 1] s
    rw [ih, Function.iterate_succ_apply]

theorem styleLoop_frames_disabled {S : Type} {H W C : ℕ} (M : StyleNet S H W C)
    (rate : ℕ) :
    ∀ (n i : ℕ) (s : S), (styleLoop M false rate n i s).frames = [] := by
  intro n
  induction n with
  | zero => intro i s; rfl
  | succ n ih =>
    intro i s
    show (if (false = true ∧ i % rate = 0) then _ else [])
        ++ (styleLoop M false rate n (i + 1) _).frames = []
    rw [if_neg (by simp), ih]
    rfl

theorem styleLoop_frames_enabled {S : Type} {H W C : ℕ} (M : StyleNet S H W C)
    (rate : ℕ) :
    ∀ (n j : ℕ) (s : S),
      (styleLoop M true rate n j s).frames =
        (List.range n).filterMap (fun k =>
          if (j + k) % rate = 0 then
            some (j + k, imsaveArr (M.net_img ((stepOnce M)^[k] s)))
          else none) := by
  intro n
  induction n with
  | zero => intro j s; rfl
  | succ n ih =>
    intro j s
    have hloop : (styleLoop M true rate (n + 1) j s).frames
        = (if true = true ∧ j % rate = 0
            then [(j, imsaveArr (M.net_img s))] else [])
          ++ (styleLoop M true rate n (j + 1) (stepOnce M s)).frames := rfl
    have hcomp : (List.map Nat.succ (List.range n)).filterMap (fun k =>
          if (j + k) % rate = 0 then
            some (j + k, imsaveArr (M.net_img ((stepOnce M)^[k] s)))
          else none)
        = (List.range n).filterMap (fun k =>
          if ((j + 1) + k) % rate = 0 then
            some ((j + 1) + k,
              imsaveArr (M.net_img ((stepOnce M)^[k] (stepOnce M s))))
          else none) := by
      rw [List.filterMap_map]
      apply List.filterMap_congr
      intro k _
      simp only [Function.comp_apply, Nat.succ_eq_add_one]
      rw [Function.iterate_succ_apply]
      have e : j + (k + 1) = (j + 1) + k := by omega
      rw [e]
    rw [hloop, ih (j + 1) (stepOnce M s), List.range_succ_eq_map,
      List.filterMap_cons, hcomp]
    by_cases hj : j % rate = 0
    · rw [if_pos ⟨rfl, hj⟩]
      simp [hj]
    · rw [if_neg (by simp [hj])]
      simp [hj]

theorem styleLoop_frames_length {S : Type} {H W C : ℕ} (M : StyleNet S H W C)
    (rate : ℕ) :
    ∀ (n i : ℕ) (s : S),
      (styleLoop M true rate n i s).frames.length = countHits rate i n := by
  intro n
  induction n with
  | zero => intro i s; rfl
  | succ n ih =>
    intro i s
    have hloop : (styleLoop M true rate (n + 1) i s).frames
        = (if true = true ∧ i % rate = 0
            then [(i, imsaveArr (M.net_img s))] else [])
          ++ (styleLoop M true rate n (i + 1) (stepOnce M s)).frames := rfl
    rw [hloop, List.length_append, ih]
    show (if true = true ∧ i % rate = 0
        then [(i, imsaveArr (M.net_img s))] else []).length + _
      = (if i % rate = 0 then 1 else 0) + countHits rate (i + 1) n
    by_cases hi : i % rate = 0
    · rw [if_pos ⟨rfl, hi⟩, if_pos hi]
      rfl
    · rw [if_neg (by simp [hi]), if_neg hi]
      rfl

theorem countHits_zero_start (rate : ℕ) (hr : 0 < rate) :
    ∀ n : ℕ, countHits rate 0 n = (n + rate - 1) / rate := by
  have hshift : ∀ (n j : ℕ), countHits rate j (n + 1)
      = countHits rate j n + (if (j + n) % rate = 0 then 1 else 0) := by
    intro n
    induction n with
    | zero =>
      intro j
      show (if j % rate = 0 then 1 else 0) + 0 = 0 + (if (j + 0) % rate = 0 then 1 else 0)
      simp [Nat.add_comm]
    | succ n ih =>
      intro j
      show (if j % rate = 0 then 1 else 0) + countHits rate (j + 1) (n + 1)
        = ((if j % rate = 0 then 1 else 0) + countHits rate (j + 1) n)
          + (if (j + (n + 1)) % rate = 0 then 1 else 0)
      rw [ih (j + 1)]
      have e : (j + 1) + n = j + (n + 1) := by omega
      rw [e, Nat.add_assoc]
  intro n
  induction n with
  | zero =>
    have h0 : countHits rate 0 0 = 0 := rfl
    rw [h0, Nat.div_eq_of_lt (by omega)]
  | succ n ih =>
    rw [hshift n 0, ih]
    have e1 : n + 1 + rate - 1 = (n + rate - 1) + 1 := by omega
    rw [e1, Nat.succ_div]
    have e2 : n + rate - 1 + 1 = n + rate := by omega
    rw [e2]
    have hdvd : rate ∣ n + rate ↔ n % rate = 0 := by
      rw [Nat.dvd_add_self_right]
      exact Nat.dvd_iff_mod_eq_zero
    by_cases hn : n % rate = 0
    · rw [if_pos (hdvd.mpr hn), if_pos (by simpa using hn)]
    · rw [if_neg (fun h => hn (hdvd.mp h)), if_neg (by simpa using hn)]

theorem savedImages_are_clips {S : Type} {H W C : ℕ} (M : StyleNet S H W C)
    (e : Bool) (rate : ℕ) :
    ∀ (n i : ℕ) (s : S) (p : ℕ × Image3 H W C ℤ),
      p ∈ (styleLoop M e rate n i s).frames →
      ∃ v : Image3 H W C ℚ, p.2 = imsaveArr v := by
  intro n
  induction n with
  | zero =>
    intro i s p hp
    exact absurd hp (by simp [styleLoop])
  | succ n ih =>
    intro i s p hp
    have hloop : (styleLoop M e rate (n + 1) i s).frames
        = (if e = true ∧ i % rate = 0
            then [(i, imsaveArr (M.net_img s))] else [])
          ++ (styleLoop M e rate n (i + 1) (stepOnce M s)).frames := rfl
    rw [hloop, List.mem_append] at hp
    rcases hp with hp | hp
    · by_cases hc : e = true ∧ i % rate = 0
      · rw [if_pos hc, List.mem_singleton] at hp
        exact ⟨M.net_img s, by rw [hp]⟩
      · rw [if_neg hc] at hp
        exact absurd hp (List.not_mem_nil p)
    · exact ih (i + 1) (stepOnce M s) p hp

theorem clipU8_bounds (q : ℚ) : 0 ≤ clipU8 q ∧ clipU8 q ≤ 255 := by
  unfold clipU8
  constructor
  · apply Int.le_floor.mpr
    push_cast
    exact le_max_left 0 (min 255 q)
  · have h1 : max (0 : ℚ) (min 255 q) ≤ 255 :=
      max_le (by norm_num) (min_le_left 255 q)
    calc Int.floor (max (0 : ℚ) (min 255 q)) ≤ Int.floor (255 : ℚ) :=
          Int.floor_le_floor h1
      _ = 255 := by norm_num

/-! ## Claim theorems (first group) -/

/-- C3: for pairs with indices in `[0, 19)` (typed `Fin 19`), a strictly
positive accumulated total yields a vector summing to exactly 1; a
non-positive total returns the accumulated vector un-normalized, which for
an empty or all-zero input is the all-zeros vector. -/
theorem weight_array_normalization (ws : List (Fin 19 × ℚ)) :
    (0 < ∑ j, accum_weights ws (fun _ => 0) j →
      ∑ j, weight_array ws j = 1) ∧
    (¬ 0 < ∑ j, accum_weights ws (fun _ => 0) j →
      weight_array ws = accum_weights ws (fun _ => 0)) ∧
    (ws = [] → weight_array ws = fun _ => 0) ∧
    ((∀ p ∈ ws, p.2 = 0) → weight_array ws = fun _ => 0) := by
  have hzero : ∀ (l : List (Fin 19 × ℚ)) (a : Fin 19 → ℚ),
      (∀ p ∈ l, p.2 = 0) → (∀ j, a j = 0) → accum_weights l a = fun _ => 0 := by
    intro l
    induction l with
    | nil =>
      intro a _ ha
      funext j
      exact ha j
    | cons p rest ih =>
      intro a hl ha
      obtain ⟨i, w⟩ := p
      have hw : w = 0 := hl (i, w) (List.mem_cons_self _ _)
      refine ih _ (fun q hq => hl q (List.mem_cons_of_mem _ hq)) ?_
      intro j
      rw [Function.update_apply]
      rcases eq_or_ne j i with h | h
      · simp [h, hw]
      · simp [h, ha j]
  refine ⟨?_, ?_, ?_, ?_⟩
  · intro hpos
    unfold weight_array
    rw [if_pos hpos]
    rw [← Finset.sum_div]
    exact div_self (ne_of_gt hpos)
  · intro hneg
    unfold weight_array
    rw [if_neg hneg]
  · intro hnil
    subst hnil
    have h0 : accum_weights [] (fun _ => 0) = fun _ => (0 : ℚ) := rfl
    unfold weight_array
    simp [h0]
  · intro hall
    have h0 : accum_weights ws (fun _ => 0) = fun _ => (0 : ℚ) :=
      hzero ws _ hall (fun _ => rfl)
    unfold weight_array
    simp [h0]

/-- Witness for C3: a concrete positive-total input normalizes to sum 1,
and a concrete all-zero input returns the all-zeros vector. -/
theorem weight_array_normalization_witness :
    (0 < ∑ j, accum_weights [((0 : Fin 19), (5 : ℚ))] (fun _ => 0) j ∧
      ∑ j, weight_array [((0 : Fin 19), (5 : ℚ))] j = 1) ∧
    ((∀ p ∈ [((3 : Fin 19), (0 : ℚ))], p.2 = 0) ∧
      weight_array [((3 : Fin 19), (0 : ℚ))] = fun _ => 0) := by
  have hacc : accum_weights [((0 : Fin 19), (5 : ℚ))] (fun _ => 0)
      = Function.update (fun _ => 0) 0 5 := rfl
  have hpos : 0 < ∑ j, accum_weights [((0 : Fin 19), (5 : ℚ))] (fun _ => 0) j := by
    rw [hacc, Finset.sum_update_of_mem (Finset.mem_univ _)]
    norm_num
  constructor
  · exact ⟨hpos, (weight_array_normalization [((0 : Fin 19), (5 : ℚ))]).1 hpos⟩
  · refine ⟨by simp, ?_⟩
    exact (weight_array_normalization [((3 : Fin 19), (0 : ℚ))]).2.2.2 (by simp)

/-- C4: converting an `H×W×C` image to the network's `1×C×H×W` layout and
back is the identity, exactly — both maps are pure axis permutations with a
batch-dimension add/drop. -/
theorem to_rgb_to_bc01 {H W C : ℕ} {α : Type} (img : Image3 H W C α) :
    to_rgb (to_bc01 img) = img :=
  rfl

/-- C2: with a positive animation rate and the network's single parameter,
`iterations = 0` performs no update/step and writes the initial image
unchanged; `iterations = N` performs exactly `N` `net.update()` calls and
`N` optimizer steps, writes `⌈N / animationRate⌉ = (N + rate - 1) / rate`
animation frames when animation is enabled and zero when disabled, and
always terminates with the final image written (the loop is a total
function of the fixed caller-supplied count, with no convergence check). -/
theorem style_image_loop_spec {S : Type} {H W C : ℕ} (M : StyleNet S H W C)
    (e : Bool) (rate N : ℕ) (s0 : S)
    (hr : 0 < rate) (hp : M.nparams = 1) :
    (style_image_run M e rate N s0).1.updateCalls = N ∧
    (style_image_run M e rate N s0).1.stepCalls = N ∧
    (style_image_run M e rate N s0).1.frames.length
      = (if e = true then (N + rate - 1) / rate else 0) ∧
    (style_image_run M e rate N s0).2
      = imsaveArr (M.net_img ((stepOnce M)^[N] s0)) ∧
    (N = 0 → (style_image_run M e rate N s0).1.state = s0 ∧
      (style_image_run M e rate N s0).2 = imsaveArr (M.net_img s0)) := by
  refine ⟨?_, ?_, ?_, ?_, ?_⟩
  · exact styleLoop_updateCalls M e rate N 0 s0
  · rw [show (style_image_run M e rate N s0).1.stepCalls
        = (styleLoop M e rate N 0 s0).stepCalls from rfl,
      styleLoop_stepCalls M e rate N 0 s0, hp, Nat.mul_one]
  · cases e with
    | false =>
      rw [show (style_image_run M false rate N s0).1.frames
          = (styleLoop M false rate N 0 s0).frames from rfl,
        styleLoop_frames_disabled M rate N 0 s0]
      simp
    | true =>
      rw [show (style_image_run M true rate N s0).1.frames
          = (styleLoop M true rate N 0 s0).frames from rfl,
        styleLoop_frames_length M rate N 0 s0,
        countHits_zero_start rate hr N]
      simp
  · rw [show (style_image_run M e rate N s0).2
        = imsaveArr (M.net_img (styleLoop M e rate N 0 s0).state) from rfl,
      styleLoop_state M e rate N 0 s0]
  · intro hN
    subst hN
    exact ⟨rfl, rfl⟩

/-- Witness for C2: a concrete 3-iteration run with rate 2 performs 3
updates, 3 steps and 2 animation saves, and a 0-iteration run performs
none, writing the initial image's pixels. -/
theorem style_image_loop_spec_witness :
    ((0 : ℕ) < 2 ∧ netW.nparams = 1 ∧
      (style_image_run netW true 2 3 0).1.updateCalls = 3 ∧
      (style_image_run netW true 2 3 0).1.stepCalls = 3 ∧
      (style_image_run netW true 2 3 0).1.frames.length = 2) ∧
    ((style_image_run netW false 1 0 0).1.updateCalls = 0 ∧
      (style_image_run netW false 1 0 0).2 = imsaveArr (netW.net_img 0)) := by
  have h3 := style_image_loop_spec netW true 2 3 0 (by decide) rfl
  have h0 := style_image_loop_spec netW false 1 0 0 (by decide) rfl
  refine ⟨⟨by decide, rfl, h3.1, h3.2.1, ?_⟩, h0.1, (h0.2.2.2.2 rfl).2⟩
  rw [h3.2.2.1]
  decide

/-- C9: every image the program persists — each animation checkpoint and
the final output — is the clip-to-`[0,255]`-and-cast-to-uint8 of the
in-memory image, so all of its persisted pixel values lie in `[0, 255]`. -/
theorem saved_images_clipped {S : Type} {H W C : ℕ} (M : StyleNet S H W C)
    (e : Bool) (rate N : ℕ) (s0 : S) (img : Image3 H W C ℤ)
    (himg : img ∈ savedImages (style_image_run M e rate N s0)) :
    ∀ (x : Fin H) (y : Fin W) (c : Fin C),
      0 ≤ img x y c ∧ img x y c ≤ 255 := by
  have hform : ∃ v : Image3 H W C ℚ, img = imsaveArr v := by
    unfold savedImages at himg
    rw [List.mem_append] at himg
    rcases himg with h | h
    · rw [List.mem_map] at h
      obtain ⟨p, hp, hpe⟩ := h
      obtain ⟨v, hv⟩ := savedImages_are_clips M e rate N 0 s0 p hp
      exact ⟨v, by rw [← hpe, hv]⟩
    · rw [List.mem_singleton] at h
      exact ⟨M.net_img (styleLoop M e rate N 0 s0).state, h⟩
  obtain ⟨v, hv⟩ := hform
  intro x y c
  rw [hv]
  exact clipU8_bounds (v x y c)

/-- Witness for C9: the final output of a concrete run is a persisted
image, and its (single) pixel lies in `[0, 255]`. -/
theorem saved_images_clipped_witness :
    ((style_image_run netW false 1 0 0).2
        ∈ savedImages (style_image_run netW false 1 0 0)) ∧
    (0 ≤ (style_image_run netW false 1 0 0).2 0 0 0 ∧
      (style_image_run netW false 1 0 0).2 0 0 0 ≤ 255) := by
  have hm : (style_image_run netW false 1 0 0).2
      ∈ savedImages (style_image_run netW false 1 0 0) := by
    unfold savedImages
    exact List.mem_append_right _ (List.mem_singleton.mpr rfl)
  exact ⟨hm, saved_images_clipped netW false 1 0 0 _ hm 0 0 0⟩

/-- C10: with animation enabled at a positive rate, the checkpoint for
iteration index `i` (any `i < iterations` with `i % rate = 0`) is written
at the top of the loop body, before that iteration's `net.update()` and
optimizer step, so it persists the image after exactly `i` optimizer
steps; in particular checkpoint 0 is the initial image, before any
optimization. -/
theorem animation_checkpoint_content {S : Type} {H W C : ℕ}
    (M : StyleNet S H W C) (rate N i : ℕ) (s0 : S)
    (_hr : 0 < rate) (hi : i < N) (hm : i % rate = 0) :
    (i, imsaveArr (M.net_img ((stepOnce M)^[i] s0)))
      ∈ (style_image_run M true rate N s0).1.frames := by
  rw [show (style_image_run M true rate N s0).1.frames
      = (styleLoop M true rate N 0 s0).frames from rfl,
    styleLoop_frames_enabled M rate N 0 s0]
  rw [List.mem_filterMap]
  refine ⟨i, List.mem_range.mpr hi, ?_⟩
  rw [Nat.zero_add, if_pos hm]

/-- Witness for C10: in a concrete 3-iteration, rate-2 run the iteration-2
checkpoint is present and holds the image after exactly two optimizer
steps, and the iteration-0 checkpoint equals the initial image. -/
theorem animation_checkpoint_content_witness :
    ((0 : ℕ) < 2 ∧ 2 < 3 ∧ 2 % 2 = 0 ∧
      (2, imsaveArr (netW.net_img ((stepOnce netW)^[2] 0)))
        ∈ (style_image_run netW true 2 3 0).1.frames) ∧
    ((0, imsaveArr (netW.net_img 0))
        ∈ (style_image_run netW true 2 3 0).1.frames) := by
  refine ⟨⟨by decide, by decide, by decide,
    animation_checkpoint_content netW 2 3 2 0 (by decide) (by decide) (by decide)⟩, ?_⟩
  exact animation_checkpoint_content netW 2 3 0 0 (by decide) (by decide) (by decide)

/-- C5: the prepared initial tensor is the blend
`init*(1 - noiseWeight) + noise*noiseWeight` with the noise scaled by
one tenth of the initial image's own standard deviation; at
`noiseWeight = 0` it equals the mean-subtracted subject (or explicit init)
image exactly, and at `noiseWeight = 1` it equals the pure generated
noise. -/
theorem prepare_init_blend {R : Type} {H W C : ℕ} (sqrtFn : ℚ → ℚ)
    (rng : NpRandom R H W C) (r0 : R) (seed? : Option ℤ)
    (subject style : Image3 H W C ℚ) (init? : Option (Image3 H W C ℚ))
    (mean : Fin C → ℚ) (w : ℚ) :
    ((prepare_images sqrtFn rng r0 seed? subject style init? mean w).init_img
      = fun x y c => initImage subject init? mean x y c * (1 - w)
        + (sqrtFn (npVariance (initImage subject init? mean)) * (1 / 10))
            * rng.stdNormal (seededState rng r0 seed?) x y c * w) ∧
    (w = 0 →
      (prepare_images sqrtFn rng r0 seed? subject style init? mean w).init_img
        = initImage subject init? mean) ∧
    (w = 1 →
      (prepare_images sqrtFn rng r0 seed? subject style init? mean w).init_img
        = fun x y c =>
            (sqrtFn (npVariance (initImage subject init? mean)) * (1 / 10))
              * rng.stdNormal (seededState rng r0 seed?) x y c) := by
  have hblend : (prepare_images sqrtFn rng r0 seed? subject style init? mean
        w).init_img
      = fun x y c => initImage subject init? mean x y c * (1 - w)
        + (sqrtFn (npVariance (initImage subject init? mean)) * (1 / 10))
            * rng.stdNormal (seededState rng r0 seed?) x y c * w := by
    cases init? <;> rfl
  refine ⟨hblend, ?_, ?_⟩
  · intro hw
    subst hw
    rw [hblend]
    funext x y c
    ring
  · intro hw
    subst hw
    rw [hblend]
    funext x y c
    ring

/-- Witness for C5: at a concrete input, noise weight 0 returns the
mean-subtracted subject exactly, and noise weight 1 returns the pure
scaled noise. -/
theorem prepare_init_blend_witness :
    ((prepare_images sqrtW rngW () none subjW styW none meanW 0).init_img
      = initImage subjW none meanW) ∧
    ((prepare_images sqrtW rngW () none subjW styW none meanW 1).init_img
      = fun x y c =>
          (sqrtW (npVariance (initImage subjW none meanW)) * (1 / 10))
            * rngW.stdNormal (seededState rngW () none) x y c) :=
  ⟨(prepare_init_blend sqrtW rngW () none subjW styW none meanW 0).2.1 rfl,
   (prepare_init_blend sqrtW rngW () none subjW styW none meanW 1).2.2 rfl⟩

/-- C6: when a random seed is supplied, the generator is deterministically
seeded before sampling, so the prepared tensors do not depend on the
ambient generator state — two runs with the same seed and identical inputs
produce identical noise-blended initial tensors. -/
theorem prepare_images_seed_deterministic {R : Type} {H W C : ℕ}
    (sqrtFn : ℚ → ℚ) (rng : NpRandom R H W C) (sd : ℤ) (r0 r0' : R)
    (subject style : Image3 H W C ℚ) (init? : Option (Image3 H W C ℚ))
    (mean : Fin C → ℚ) (w : ℚ) :
    prepare_images sqrtFn rng r0 (some sd) subject style init? mean w
      = prepare_images sqrtFn rng r0' (some sd) subject style init? mean w :=
  rfl

theorem mapConv_eq_none {α β : Type} (f : α → Option β) :
    ∀ (l : List α) (a : α), a ∈ l → f a = none → mapConv f l = none := by
  intro l
  induction l with
  | nil =>
    intro a ha _
    exact absurd ha (List.not_mem_nil a)
  | cons x xs ih =>
    intro a ha hf
    rcases List.mem_cons.mp ha with rfl | ha
    · unfold mapConv
      rw [hf]
    · unfold mapConv
      rw [ih a ha hf]
      cases f x <;> rfl

/-- C1 (code bug): `style_video` raises `NameError` while building
`split_frames_cmd` (the name `subject` is unbound), so for any input-frame
directory contents no frame is ever processed — and even the unreachable
per-frame loop passes the unmodified `args` object to `style_image` (the
per-frame subject/output assignments go to the dead copy `frame_args`),
contradicting the claimed one-output-per-input-frame behavior. -/
theorem style_video_code_bug {F P : Type} (inF outF : List F)
    (args : FrameArgs P) (inPath outPath : F → P) (frames : List F) :
    ((style_video ⟨some inF, some outF⟩).2
        = Except.error (PyErr.nameError, ⟨some [], some []⟩)) ∧
    (∀ f : F, VidEv.processFrame f ∉ (style_video ⟨some inF, some outF⟩).1) ∧
    (video_frame_calls args inPath outPath frames
        = frames.map (fun _ => args)) := by
  refine ⟨rfl, ?_, ?_⟩
  · intro f
    show VidEv.processFrame f ∉ [VidEv.resetInput, VidEv.resetOutput]
    simp
  · unfold video_frame_calls
    generalize { args with animation := some false } = fa
    induction frames generalizing fa with
    | nil => rfl
    | cons f rest ih =>
      show args :: video_frame_go args inPath outPath _ rest
        = args :: rest.map (fun _ => args)
      rw [ih]

/-- C7 (amended): when both frame directories exist, each is deleted and
recreated empty, and these two resets are the entire observable activity
before the job aborts — no frame is extracted or processed after stale
state could survive; when the input-frame directory is missing, the job
aborts immediately with `FileNotFoundError`, before any reset or
extraction. -/
theorem style_video_resets_directories {F : Type} :
    (∀ inF outF : List F,
      style_video ⟨some inF, some outF⟩
        = ([VidEv.resetInput, VidEv.resetOutput],
            Except.error (PyErr.nameError, ⟨some [], some []⟩))) ∧
    (∀ out? : Option (List F),
      style_video ⟨none, out?⟩
        = ([], Except.error (PyErr.fileNotFound, ⟨none, out?⟩))) :=
  ⟨fun _ _ => rfl, fun _ => rfl⟩

/-- C7 counterexample: a job whose input-frame directory is missing while
the output-frame directory still holds a stale frame aborts at the first
`shutil.rmtree` — the output-frame directory is never reset to empty, so
the claim's unconditional reset is false. -/
theorem style_video_missing_dir_counterexample :
    style_video (⟨none, some [0]⟩ : VFS ℕ)
      = ([], Except.error (PyErr.fileNotFound, ⟨none, some [0]⟩)) ∧
    (⟨none, some [0]⟩ : VFS ℕ).output_frames ≠ some [] := by
  refine ⟨rfl, ?_⟩
  simp

/-- C8 (amended): a weight pair the converter rejects (not two
comma-separated plain floats) or an `--init-noise` string that fails to
parse or parses outside `[0, 1]` makes `parse_args` raise, so the process
exits with the nonzero status 2 before dispatch — no image is loaded and
no optimization starts; moreover every successfully parsed `--init-noise`
value outside `[0, 1]` is rejected this way. -/
theorem config_errors_exit_before_load (raw : RawArgs)
    (h : float_range raw.init_noise = Except.error ()
      ∨ (∃ s ∈ raw.subject_weights, weight_tuple s = Except.error ())
      ∨ (∃ s ∈ raw.style_weights, weight_tuple s = Except.error ())) :
    run raw = RunOutcome.exitUsage 2 ∧ (2 : ℕ) ≠ 0 ∧
    (∀ (s : List Char) (x : ℚ), pyFloat s = some x → (x < 0 ∨ 1 < x) →
      float_range s = Except.error ()) := by
  have hp : parse_args raw = Except.error 2 := by
    rcases h with h | ⟨s, hs, he⟩ | ⟨s, hs, he⟩
    · unfold parse_args
      rw [h]
    · have hnone : mapConv (fun s => (weight_tuple s).toOption)
          raw.subject_weights = none :=
        mapConv_eq_none _ _ s hs (by rw [he]; rfl)
      unfold parse_args
      rw [hnone]
      cases float_range raw.init_noise <;> rfl
    · have hnone : mapConv (fun s => (weight_tuple s).toOption)
          raw.style_weights = none :=
        mapConv_eq_none _ _ s hs (by rw [he]; rfl)
      unfold parse_args
      rw [hnone]
      cases float_range raw.init_noise <;>
        cases mapConv (fun s => (weight_tuple s).toOption) raw.subject_weights <;>
        rfl
  refine ⟨?_, by decide, ?_⟩
  · unfold run
    rw [hp]
  · intro s x hx hrange
    unfold float_range
    rw [hx]
    show (if x < 0 ∨ 1 < x then Except.error () else Except.ok x)
      = Except.error ()
    exact if_pos hrange

/-- Witness for C8: with an out-of-range `--init-noise` of "2" and the
malformed weight pair "a", the run exits with usage status 2. -/
theorem config_errors_exit_before_load_witness :
    float_range ['2'] = Except.error () ∧
    run rawW = RunOutcome.exitUsage 2 := by
  have hf : float_range ['2'] = Except.error () := rfl
  exact ⟨hf, (config_errors_exit_before_load rawW (Or.inl hf)).1⟩

/-- C8 counterexample: the claim classifies any pair not of the form
"int,float" as a parse error, but `weight_tuple` parses both components
with `float`: "1.5,2.0" is accepted, its first component being the
non-integral rational 3/2. -/
theorem weight_tuple_accepts_noninteger_index :
    weight_tuple ['1', '.', '5', ',', '2', '.', '0'] = Except.ok (3/2, 2) ∧
    ¬ ∃ n : ℤ, ((3 : ℚ)/2 = (n : ℚ)) := by
  constructor
  · have hd1 : digitsVal ['1'] = 1 := rfl
    have hd5 : digitsVal ['5'] = 5 := rfl
    have hd2 : digitsVal ['2'] = 2 := rfl
    have hd0 : digitsVal ['0'] = 0 := rfl
    have h1 : pyFloat ['1', '.', '5'] = some (3/2) := by
      rw [show pyFloat ['1', '.', '5']
          = some ((digitsVal ['1'] : ℚ) + (digitsVal ['5'] : ℚ) / (10 : ℚ) ^ (1 : ℕ))
        from rfl, hd1, hd5]
      norm_num
    have h2 : pyFloat ['2', '.', '0'] = some 2 := by
      rw [show pyFloat ['2', '.', '0']
          = some ((digitsVal ['2'] : ℚ) + (digitsVal ['0'] : ℚ) / (10 : ℚ) ^ (1 : ℕ))
        from rfl, hd2, hd0]
      norm_num
    unfold weight_tuple
    rw [show (splitComma ['1', '.', '5', ',', '2', '.', '0']).map pyFloat
        = [pyFloat ['1', '.', '5'], pyFloat ['2', '.', '0']] from rfl, h1, h2]
  · rintro ⟨n, hn⟩
    have h2 : (3 : ℚ) = 2 * (n : ℚ) := by
      field_simp at hn
      linarith
    have h3 : (3 : ℤ) = 2 * n := by exact_mod_cast h2
    omega

end NAS
